import Mathlib

set_option linter.unusedVariables false
set_option linter.unreachableTactic false
set_option linter.unnecessarySeqFocus false
set_option linter.unusedTactic false

/-!
Verification development for the `mongoquery` library
(`src/mongoquery/__init__.py`): a matcher for MongoDB-style query documents
evaluated against in-memory Python values.

The embedding models Python values as the inductive `Value` (JSON-like data:
`None`, `bool`, `int`, `str`, lists, string-keyed dicts) plus the `_Undefined`
sentinel used by the path resolver.  Python `float`, `bytearray`, compiled
regex objects and other exotic values are outside the modelled value space;
code paths whose behaviour depends on unmodelled machinery (the regex engine,
`%`-style string formatting, argument-shape-confused internal method calls)
return the explicit error `Err.unmodeled` rather than an invented result.

Python exceptions are modelled with the `Err` type; fallible functions return
`Except Err _`.  Booleans are a subclass of `int` in Python, which the
instance checks and numeric coercions below reproduce.
-/

/-- Python value model: `None`, `bool`, `int`, `str`, `list`, `dict` (string
keys, insertion ordered), plus the `_Undefined` sentinel class instances used
by `Query._extract`.  (`float`/`bytearray`/`re.Pattern` are not modelled.) -/
inductive Value where
  | null : Value
  | bool : Bool → Value
  | int : Int → Value
  | str : String → Value
  | arr : List Value → Value
  | obj : List (String × Value) → Value
  | undefined : Value

/-- Python exceptions that the code can raise.  `QueryError` and `TypeError`
carry their message; `unmodeled` marks executions leaving the modelled value
space (regex engine runs, `%`-string formatting, internal methods invoked
with swapped argument shapes via `getattr` dispatch). -/
inductive Err where
  | queryError : String → Err
  | typeError : String → Err
  | notImplementedError : Err
  | indexError : Err
  | keyError : Err
  | zeroDivisionError : Err
  | assertionError : Err
  | recursionError : Err
  | unmodeled : Err
deriving DecidableEq, Repr

/-! ### Character-list string utilities

Python string operations are modelled over `String.data` so that all of them
are plain structural recursions. -/

/-- `s[0] == "$"` / `str.startswith("$")`. -/
def strStartsDollar (s : String) : Bool :=
  match s.data with
  | c :: _ => c == '$'
  | [] => false

/-- Leading underscore test (used to exclude dunder attribute names from the
modelled `getattr` dispatch table). -/
def strStartsUnderscore (s : String) : Bool :=
  match s.data with
  | c :: _ => c == '_'
  | [] => false

/-- Python `s[1:]`. -/
def strDrop1 (s : String) : String :=
  match s.data with
  | _ :: rest => String.mk rest
  | [] => String.mk []

/-- `s.find(".") != -1`, i.e. the key contains a dot. -/
def strContainsDot (s : String) : Bool :=
  s.data.any (fun c => c == '.')

/-- One-character string from a char (Python string iteration yields these). -/
def charToStr (c : Char) : String :=
  String.mk [c]

/-- Split a char list on a separator, Python `str.split(sep)` style
(`"".split(".") == [""]`, `"a..b".split(".") == ["a","","b"]`). -/
def splitCharsOn (sep : Char) : List Char → List Char → List String
  | acc, [] => [String.mk acc.reverse]
  | acc, c :: rest =>
    if c == sep then String.mk acc.reverse :: splitCharsOn sep [] rest
    else splitCharsOn sep (c :: acc) rest

/-- Python `s.split(".")`. -/
def splitDot (s : String) : List String :=
  splitCharsOn '.' [] s.data

/-- Python `str.isdigit()` (restricted to ASCII digits): nonempty and all
characters are digits. -/
def pyIsDigit (s : String) : Bool :=
  !s.data.isEmpty && s.data.all Char.isDigit

/-- Decimal value of a digit list. -/
def digitsToNat : List Char → Nat
  | [] => 0
  | c :: rest => digitsToNatAux (c.toNat - 48) rest
where
  digitsToNatAux (acc : Nat) : List Char → Nat
    | [] => acc
    | c :: rest => digitsToNatAux (acc * 10 + (c.toNat - 48)) rest

/-- Python `int(s)` for strings: optional surrounding whitespace, optional
sign, then one or more digits; anything else raises `ValueError`, modelled
as `none`.  (Underscore digit grouping and non-ASCII digits are not
modelled.) -/
def parsePyInt (s : String) : Option Int :=
  let t := ((s.data.dropWhile Char.isWhitespace).reverse.dropWhile
              Char.isWhitespace).reverse
  match t with
  | '+' :: ds => if !ds.isEmpty && ds.all Char.isDigit then
      some (Int.ofNat (digitsToNat ds)) else none
  | '-' :: ds => if !ds.isEmpty && ds.all Char.isDigit then
      some (-(Int.ofNat (digitsToNat ds))) else none
  | ds => if !ds.isEmpty && ds.all Char.isDigit then
      some (Int.ofNat (digitsToNat ds)) else none

/-- Is `needle` a contiguous prefix of `hay`? -/
def prefixOfCL : List Char → List Char → Bool
  | [], _ => true
  | _ :: _, [] => false
  | a :: as, b :: bs => a == b && prefixOfCL as bs

/-- Does `needle` occur contiguously in `hay`?  (Python `t in s` for
strings: substring containment; the empty string occurs everywhere.) -/
def occursCL (needle : List Char) : List Char → Bool
  | [] => needle.isEmpty
  | c :: rest => prefixOfCL needle (c :: rest) || occursCL needle rest

/-- Python substring test `t in s`. -/
def strContainsStr (s t : String) : Bool :=
  occursCL t.data s.data

/-- Lexicographic comparison of char lists by code point (Python `str` order). -/
def compareCL : List Char → List Char → Ordering
  | [], [] => .eq
  | [], _ :: _ => .lt
  | _ :: _, [] => .gt
  | a :: as, b :: bs =>
    match compare a.toNat b.toNat with
    | .eq => compareCL as bs
    | o => o

/-! ### Size measure for termination

`Value.str` has constant size: Python string iteration yields one-character
strings that are not structurally smaller, so the matcher's termination
cannot be measured through string contents. -/

mutual

/-- Size of a value; every scalar (including strings) has size 1. -/
def vs : Value → Nat
  | .arr xs => 1 + vsL xs
  | .obj kvs => 1 + vsKV kvs
  | _ => 1

/-- Size of a list of values. -/
def vsL : List Value → Nat
  | [] => 0
  | x :: xs => 1 + vs x + vsL xs

/-- Size of a key/value list. -/
def vsKV : List (String × Value) → Nat
  | [] => 0
  | (_, v) :: rest => 1 + vs v + vsKV rest

end

/-! ### Python equality (`==`)

Python `==` on the modelled values: numeric cross-type equality identifies
`True` with `1` and `False` with `0` (bool is a subclass of int); lists
compare elementwise; dicts compare by key set and per-key values (order
irrelevant); `_Undefined()` instances are fresh objects equal to nothing. -/

mutual

/-- Python `a == b` on modelled values. -/
def pyEq : Value → Value → Bool
  | .null, .null => true
  | .bool a, .bool b => a == b
  | .bool a, .int n => (if a then (1 : Int) else 0) == n
  | .int n, .bool a => n == (if a then (1 : Int) else 0)
  | .int m, .int n => m == n
  | .str s, .str t => s.data == t.data
  | .arr xs, .arr ys => pyEqList xs ys
  | .obj xs, .obj ys => xs.length == ys.length && pyEqObj xs ys
  | _, _ => false

/-- Elementwise list equality. -/
def pyEqList : List Value → List Value → Bool
  | [], [] => true
  | x :: xs, y :: ys => pyEq x y && pyEqList xs ys
  | _, _ => false

/-- Every key of the first dict is present in the second with an equal
value (dict keys are unique, so with equal lengths this is dict equality). -/
def pyEqObj : List (String × Value) → List (String × Value) → Bool
  | [], _ => true
  | (k, v) :: rest, ys => pyEqLookup k v ys && pyEqObj rest ys

/-- Find key `k` in `ys` and compare its value to `v`. -/
def pyEqLookup : String → Value → List (String × Value) → Bool
  | _, _, [] => false
  | k, v, (k₂, v₂) :: rest =>
    if k == k₂ then pyEq v v₂ else pyEqLookup k v rest

end

/-! ### Python ordering (`<`, `>`, `<=`, `>=`)

`none` models `TypeError` (incomparable types); the comparison operator
handlers catch that and return `False`. -/

mutual

/-- Python three-way comparison; `none` when the comparison raises
`TypeError`.  Numbers (and bools as 0/1) compare numerically, strings
lexicographically, lists lexicographically elementwise; everything else
(dicts, `None`, mixed types) is incomparable. -/
def pyCompare : Value → Value → Option Ordering
  | .int a, .int b => some (compare a b)
  | .int a, .bool b => some (compare a (if b then (1 : Int) else 0))
  | .bool a, .int b => some (compare (if a then (1 : Int) else 0) b)
  | .bool a, .bool b =>
    some (compare (if a then (1 : Int) else 0) (if b then (1 : Int) else 0))
  | .str s, .str t => some (compareCL s.data t.data)
  | .arr xs, .arr ys => pyCompareList xs ys
  | _, _ => none

/-- Python list comparison: find the first index where elements differ
under `==`, then order by that element pair; exhausted prefixes order by
length. -/
def pyCompareList : List Value → List Value → Option Ordering
  | [], [] => some .eq
  | [], _ :: _ => some .lt
  | _ :: _, [] => some .gt
  | x :: xs, y :: ys =>
    if pyEq x y then pyCompareList xs ys else pyCompare x y

end

/-! ### Small helpers shared by the operators -/

/-- `is_non_string_sequence` from the source: a `Sequence` that is not a
`str` — in the modelled value space, exactly the lists. -/
def isNonStringSeq : Value → Bool
  | .arr _ => true
  | _ => false

/-- `isinstance(v, Sequence)`: Python strings are sequences too. -/
def isSeqInst : Value → Bool
  | .arr _ => true
  | .str _ => true
  | _ => false

/-- Python truthiness. -/
def truthy : Value → Bool
  | .null => false
  | .bool b => b
  | .int n => !(n == 0)
  | .str s => !s.data.isEmpty
  | .arr xs => !xs.isEmpty
  | .obj kvs => !kvs.isEmpty
  | .undefined => true

/-- Python `not v` as a value. -/
def pyNotV (v : Value) : Value :=
  .bool (!truthy v)

/-- First-occurrence dict lookup (real dicts have unique keys). -/
def objLookup : List (String × Value) → String → Option Value
  | [], _ => none
  | (k, v) :: rest, key => if k == key then some v else objLookup rest key

/-- Python `key in dict`. -/
def objHasKey (kvs : List (String × Value)) (key : String) : Bool :=
  (objLookup kvs key).isSome

/-- Python list indexing with negative-index support; `none` is
`IndexError`. -/
def pyListIndex (xs : List Value) (i : Int) : Option Value :=
  if 0 ≤ i then xs.get? i.toNat
  else if 0 ≤ i + xs.length then xs.get? (i + xs.length).toNat
  else none

/-- Python `x in entry` for an arbitrary container on the left of `in`:
dict → key membership, list → element membership, str → substring test,
anything else raises `TypeError`. -/
def pyContains (entry needle : Value) : Except Err Bool :=
  match entry with
  | .obj kvs => .ok (kvs.any (fun kv => pyEq (.str kv.1) needle))
  | .arr xs => .ok (xs.any (fun x => pyEq x needle))
  | .str s =>
    match needle with
    | .str t => .ok (strContainsStr s t)
    | _ => .error (.typeError "in requires string as left operand")
  | _ => .error (.typeError "argument of type is not iterable")

/-- The numeric (int-or-bool) reading of a value, if any. -/
def numAsInt : Value → Option Int
  | .int n => some n
  | .bool b => some (if b then 1 else 0)
  | _ => none

/-! ### Comparison operator handlers

Each handler receives `(condition, entry)` like the Python static methods.
`$gt`/`$gte`/`$lt`/`$lte` wrap the comparison in `try/except TypeError`,
degrading incomparable types to `False`; on the modelled values `==` and
`!=` never raise. -/

/-- `Query._eq`: `entry == condition`. -/
def eqH (condition entry : Value) : Except Err Value :=
  .ok (.bool (pyEq entry condition))

/-- `Query._ne`: `entry != condition`. -/
def neH (condition entry : Value) : Except Err Value :=
  .ok (.bool (!pyEq entry condition))

/-- `Query._gt`: `entry > condition`, `TypeError` caught as `False`. -/
def gtH (condition entry : Value) : Except Err Value :=
  .ok (.bool (match pyCompare entry condition with
              | some .gt => true
              | _ => false))

/-- `Query._gte`: `entry >= condition`, `TypeError` caught as `False`. -/
def gteH (condition entry : Value) : Except Err Value :=
  .ok (.bool (match pyCompare entry condition with
              | some .gt => true
              | some .eq => true
              | _ => false))

/-- `Query._lt`: `entry < condition`, `TypeError` caught as `False`. -/
def ltH (condition entry : Value) : Except Err Value :=
  .ok (.bool (match pyCompare entry condition with
              | some .lt => true
              | _ => false))

/-- `Query._lte`: `entry <= condition`, `TypeError` caught as `False`. -/
def lteH (condition entry : Value) : Except Err Value :=
  .ok (.bool (match pyCompare entry condition with
              | some .lt => true
              | some .eq => true
              | _ => false))

/-- Core of `Query._in`: the condition must be a non-string sequence, else
`TypeError("condition must be a list")` is raised (not a `QueryError`).
For a list condition: if the entry is a non-string sequence, some condition
element must be contained in the entry; otherwise some condition element
must equal the entry. -/
def inB (condition entry : Value) : Except Err Bool :=
  match condition with
  | .arr elems =>
    .ok (elems.any (fun elem =>
      match entry with
      | .arr ys => ys.any (fun y => pyEq y elem)
      | _ => pyEq elem entry))
  | _ => .error (.typeError "condition must be a list")

/-- `Query._in` as a registry handler. -/
def inH (condition entry : Value) : Except Err Value :=
  (inB condition entry).map .bool

/-- `Query._nin`: `not self._in(condition, entry)`; errors propagate. -/
def ninH (condition entry : Value) : Except Err Value :=
  (inB condition entry).map (fun b => .bool (!b))

/-! ### `$type` -/

/-- The `bson_alias` table. -/
def bsonAlias : String → Option Int
  | "double" => some 1
  | "string" => some 2
  | "object" => some 3
  | "array" => some 4
  | "binData" => some 5
  | "objectId" => some 7
  | "bool" => some 8
  | "date" => some 9
  | "null" => some 10
  | "regex" => some 11
  | "javascript" => some 13
  | "javascriptWithScope" => some 15
  | "int" => some 16
  | "timestamp" => some 17
  | "long" => some 18
  | _ => none

/-- `isinstance(v, float)`: no modelled value is a float (Python bools are
int subclasses, not float subclasses). -/
def isInstFloat : Value → Bool
  | _ => false

/-- `isinstance(v, str)`. -/
def isInstStr : Value → Bool
  | .str _ => true
  | _ => false

/-- `isinstance(v, Mapping)`. -/
def isInstMapping : Value → Bool
  | .obj _ => true
  | _ => false

/-- `isinstance(v, bool)`. -/
def isInstBool : Value → Bool
  | .bool _ => true
  | _ => false

/-- `isinstance(v, int)`: Python bools are ints. -/
def isInstInt : Value → Bool
  | .int _ => true
  | .bool _ => true
  | _ => false

/-- `v is None`. -/
def isInstNone : Value → Bool
  | .null => true
  | _ => false

/-- The `bson_type` table: runtime shape check for a known type id;
`none` for ids absent from the table.  Ids 5 (`bytearray`) and 11
(`re.Pattern`) have no inhabitants among modelled values. -/
def bsonTypeHas (id : Int) (entry : Value) : Option Bool :=
  if id = 1 then some (isInstFloat entry)
  else if id = 2 then some (isInstStr entry)
  else if id = 3 then some (isInstMapping entry)
  else if id = 4 then some (isSeqInst entry)
  else if id = 5 then some false
  else if id = 7 then some (isInstStr entry)
  else if id = 8 then some (isInstBool entry)
  else if id = 9 then some (isInstStr entry)
  else if id = 10 then some (isInstNone entry)
  else if id = 11 then some false
  else if id = 13 then some (isInstStr entry)
  else if id = 15 then some (isInstStr entry)
  else if id = 16 then some (isInstInt entry)
  else if id = 17 then some (isInstInt entry)
  else if id = 18 then some (isInstInt entry)
  else none

/-- `Query._type`: the `"number"` meta-alias checks double/int/long;
otherwise the condition resolves through `bson_alias` (or stands as a raw
id — a bool key indexes the int-keyed dict as 0/1, since `True == 1`) and
an unknown alias/id raises `QueryError`.  An unhashable condition (list or
dict) makes the `bson_alias.get` call itself raise `TypeError`. -/
def typeH (condition entry : Value) : Except Err Value :=
  if pyEq condition (.str "number") then
    .ok (.bool (isInstFloat entry || isInstInt entry || isInstInt entry))
  else
    match condition with
    | .arr _ => .error (.typeError "unhashable type")
    | .obj _ => .error (.typeError "unhashable type")
    | .str s =>
      (match bsonAlias s with
       | some id =>
         (match bsonTypeHas id entry with
          | some b => .ok (.bool b)
          | none => .error (.queryError "$type has been used with unknown type"))
       | none => .error (.queryError "$type has been used with unknown type"))
    | .int id =>
      (match bsonTypeHas id entry with
       | some b => .ok (.bool b)
       | none => .error (.queryError "$type has been used with unknown type"))
    | .bool b =>
      (match bsonTypeHas (if b then 1 else 0) entry with
       | some r => .ok (.bool r)
       | none => .error (.queryError "$type has been used with unknown type"))
    | _ => .error (.queryError "$type has been used with unknown type")

/-! ### `$mod` -/

/-- Python subscripting `container[i]` for a nonnegative int index. -/
def pyGetItemNat (container : Value) (i : Nat) : Except Err Value :=
  match container with
  | .arr xs =>
    match xs.get? i with
    | some v => .ok v
    | none => .error .indexError
  | .str s =>
    match s.data.get? i with
    | some c => .ok (.str (charToStr c))
    | none => .error .indexError
  | .obj _ => .error .keyError
  | _ => .error (.typeError "object is not subscriptable")

/-- Python `a % b` on modelled values.  Numeric `%` follows the divisor's
sign (floor modulus); a zero divisor raises `ZeroDivisionError`.  A string
left operand without `%` characters raises `TypeError` unless the right
operand is a mapping (mapping-style formatting leaves a spec-free string
unchanged); `%`-format execution itself is outside the model. -/
def pyModOp (a b : Value) : Except Err Value :=
  match numAsInt a, numAsInt b with
  | some x, some y =>
    if y = 0 then .error .zeroDivisionError
    else .ok (.int (Int.fmod x y))
  | _, _ =>
    match a with
    | .str s =>
      if s.data.any (fun c => c == '%') then .error .unmodeled
      else
        match b with
        | .obj _ => .ok (.str s)
        | _ => .error (.typeError "not all arguments converted during string formatting")
    | _ => .error (.typeError "unsupported operand types for mod")

/-- `Query._mod`: `entry % condition[0] == condition[1]`, evaluated in that
order, with no validation of either argument. -/
def modH (condition entry : Value) : Except Err Value := do
  let c₀ ← pyGetItemNat condition 0
  let m ← pyModOp entry c₀
  let c₁ ← pyGetItemNat condition 1
  .ok (.bool (pyEq m c₁))

/-! ### `$size`, `$regex` -/

/-- `Query._size`: the condition must be an `int` (Python bools qualify),
else `QueryError`; true iff the entry is a non-string sequence of that
length. -/
def sizeH (condition entry : Value) : Except Err Value :=
  if isInstInt condition then
    .ok (.bool (match entry with
                | .arr xs => pyEq (.int xs.length) condition
                | _ => false))
  else
    .error (.queryError "$size has been attributed incorrect argument")

/-- `Query._regex`: a non-string entry is `False` before the condition is
examined; a non-string condition raises `QueryError` (the `re.match` call
on it raises `TypeError`, which is caught); running the regex engine on a
string condition is outside the model.  (Pre-compiled `re.Pattern`
conditions are not modelled values.) -/
def regexH (condition entry : Value) : Except Err Value :=
  match entry with
  | .str _ =>
    match condition with
    | .str _ => .error .unmodeled
    | _ => .error (.queryError "condition is not a regular expression and should be a string")
  | _ => .ok (.bool false)

/-! ### Size lemmas for termination proofs -/

theorem vs_lt_vsL_of_mem {x : Value} : ∀ {xs : List Value}, x ∈ xs → vs x < 1 + vsL xs := by
  intro xs h
  induction xs with
  | nil => cases h
  | cons y ys ih =>
    rcases List.mem_cons.mp h with rfl | h₂
    · simp [vsL]; omega
    · have := ih h₂
      simp [vsL] at *
      omega

theorem vs_lt_vsL_of_get? {xs : List Value} {i : Nat} {x : Value}
    (h : xs.get? i = some x) : vs x < 1 + vsL xs :=
  vs_lt_vsL_of_mem (List.get?_mem h)

theorem vs_lt_vsL_of_pyListIndex {xs : List Value} {i : Int} {x : Value}
    (h : pyListIndex xs i = some x) : vs x < 1 + vsL xs := by
  unfold pyListIndex at h
  split at h
  · exact vs_lt_vsL_of_get? h
  · split at h
    · exact vs_lt_vsL_of_get? h
    · cases h

theorem vs_lt_vsKV_of_objLookup {k : String} {v : Value} :
    ∀ {kvs : List (String × Value)}, objLookup kvs k = some v → vs v < 1 + vsKV kvs := by
  intro kvs h
  induction kvs with
  | nil => cases h
  | cons kv rest ih =>
    obtain ⟨k₂, v₂⟩ := kv
    simp only [objLookup] at h
    split at h
    · cases h
      simp [vsKV]; omega
    · have := ih h
      simp [vsKV] at *
      omega

/-! ### The path resolver `Query._extract`

`extract(entry, path)`: empty path and `None` propagate; on a list, an
integer-parsing head segment indexes (out of range raises `IndexError`,
caught by the caller), a non-parsing one fans out over every element with
the full path; on a dict a present key recurses into the value with the
tail; everything else resolves to a fresh `_Undefined()`. -/

mutual

/-- `Query._extract`. -/
def extract : Value → List String → Except Err Value
  | entry, [] => .ok entry
  | .null, _ :: _ => .ok .null
  | .arr xs, p :: ps =>
    match parsePyInt p with
    | some i =>
      match h : pyListIndex xs i with
      | some x => extract x ps
      | none => .error .indexError
    | none => (extractFan xs (p :: ps)).map .arr
  | .obj kvs, p :: ps =>
    match h : objLookup kvs p with
    | some v => extract v ps
    | none => .ok .undefined
  | _, _ :: _ => .ok .undefined
termination_by entry _ => (vs entry, 0)
decreasing_by
  · have := vs_lt_vsL_of_pyListIndex h
    simp_wf
    left
    simp [vs] <;> omega
  · simp_wf
    left
    simp [vs] <;> omega
  · have := vs_lt_vsKV_of_objLookup h
    simp_wf
    left
    simp [vs] <;> omega

/-- The fan-out list comprehension
`[self._extract(item, path) for item in entry]`; an exception from any
element propagates. -/
def extractFan : List Value → List String → Except Err (List Value)
  | [], _ => .ok []
  | x :: xs, path => do
    let v ← extract x path
    let rest ← extractFan xs path
    .ok (v :: rest)
termination_by xs _ => (vsL xs, 1)
decreasing_by
  · simp_wf
    left
    simp [vs, vsL] <;> omega
  · simp_wf
    left
    simp [vs, vsL] <;> omega

end

/-- The `try/except IndexError` wrapper in `Query._process_condition`
around `_extract`: an out-of-range index becomes `_Undefined()`. -/
def extractCaught (entry : Value) (path : List String) : Except Err Value :=
  match extract entry path with
  | .ok v => .ok v
  | .error .indexError => .ok .undefined
  | .error e => .error e

/-! ### Lexicographic helpers for termination goals -/

theorem lexNat3_left {a a' b b' c c' : Nat} (h : a < a') :
    Prod.Lex (· < ·) (Prod.Lex (· < ·) (· < ·)) (a, b, c) (a', b', c') :=
  Prod.Lex.left _ _ h

theorem lexNat3_mid {a b b' c c' : Nat} (h : b < b') :
    Prod.Lex (· < ·) (Prod.Lex (· < ·) (· < ·)) (a, b, c) (a, b', c') :=
  Prod.Lex.right _ (Prod.Lex.left _ _ h)

theorem lexNat3_right {a b c c' : Nat} (h : c < c') :
    Prod.Lex (· < ·) (Prod.Lex (· < ·) (· < ·)) (a, b, c) (a, b, c') :=
  Prod.Lex.right _ (Prod.Lex.right _ h)

/-! ### `Query._path_exists`

Used only for `$exists` conditions on dotted keys.  The walk mutates
`entry` segment by segment; on a `Sequence` entry (string or list) with a
non-digit segment it recurses over the elements with the remaining
segments, short-circuiting when a recursive result `==` the wanted value;
a failed subscript (`TypeError`/`IndexError`/`KeyError`) returns
`not condition`.  Joining `keys_list[i:]` with `"."` and re-splitting in
the recursive call reproduces the same segment list (segments contain no
dots), so the model recurses on the segment list directly.

A nonempty *string* entry at a non-digit segment makes the Python function
recurse on its own one-character strings forever, overflowing the stack:
modelled as `Err.recursionError` (an empty string just yields
`not condition`). -/

mutual

/-- `Query._path_exists`. -/
def pathExists : List String → Value → Value → Except Err Value
  | [], condition, _ => .ok condition
  | k :: rest, condition, entry =>
    match entry with
    | .arr elems =>
      if pyIsDigit k then
        match h : pyListIndex elems (Int.ofNat (digitsToNat k.data)) with
        | some e₂ => pathExists rest condition e₂
        | none => .ok (pyNotV condition)
      else
        pathExistsAny (k :: rest) condition elems
    | .str s =>
      if pyIsDigit k then
        match s.data.get? (digitsToNat k.data) with
        | some c => pathExists rest condition (.str (charToStr c))
        | none => .ok (pyNotV condition)
      else if s.data.isEmpty then .ok (pyNotV condition)
      else .error .recursionError
    | .obj kvs =>
      match h : objLookup kvs k with
      | some e₂ => pathExists rest condition e₂
      | none => .ok (pyNotV condition)
    | _ => .ok (pyNotV condition)
termination_by keys _ entry => (vs entry, keys.length, 0)
decreasing_by
  · have := vs_lt_vsL_of_pyListIndex h
    simp_wf
    apply lexNat3_left
    simp [vs] <;> omega
  · simp_wf
    apply lexNat3_left
    simp [vs] <;> omega
  · simp_wf
    simp [vs]
    apply lexNat3_mid
    omega
  · have := vs_lt_vsKV_of_objLookup h
    simp_wf
    apply lexNat3_left
    simp [vs] <;> omega

/-- The element loop of `_path_exists`: short-circuit on the first element
whose recursive result `==` the wanted value. -/
def pathExistsAny : List String → Value → List Value → Except Err Value
  | _, condition, [] => .ok (pyNotV condition)
  | keys, condition, elem :: rest => do
    let r ← pathExists keys condition elem
    if pyEq r condition then .ok condition
    else pathExistsAny keys condition rest
termination_by keys _ elems => (vsL elems, keys.length, 1)
decreasing_by
  · simp_wf
    apply lexNat3_left
    simp [vsL] <;> omega
  · simp_wf
    apply lexNat3_left
    simp [vsL] <;> omega

end

/-! ### `$expr` field references -/

/-- The string case of `Query._resolve_expr`: a string starting with `$`
is a field reference resolved by `_extract` (whose `IndexError` is **not**
caught on this path); any other string is a literal. -/
def resolveStrExpr (s : String) (entry : Value) : Except Err Value :=
  if strStartsDollar s then extract entry (splitDot (strDrop1 s))
  else .ok (.str s)

/-- Resolution of the characters of a string condition iterated by
`$expr` machinery (`for sub_condition in condition` with a `str`
condition): each one-character string resolves via the string case of
`_resolve_expr`. -/
def resolveCharsExpr (cs : List Char) (entry : Value) : Except Err (List Value) :=
  match cs with
  | [] => .ok []
  | c :: rest => do
    let v ← resolveStrExpr (charToStr c) entry
    let vs ← resolveCharsExpr rest entry
    .ok (v :: vs)

/-! ### The `getattr` dispatch table

`Query._process_condition` dispatches a `$`-operator by looking up the
attribute `"_" + operator[1:]` on the instance.  The table below lists
every single-underscore attribute of the `Query` class (operator handlers
plus internal methods and the `_definition` instance attribute, all equally
reachable); names not in the table raise `AttributeError`, converted to
`QueryError`.  Attributes inherited from `object` are all dunders, reachable
only when the stripped name itself starts with `_`; those lookups are not
modelled. -/

inductive OpTag where
  | tEq | tGt | tGte | tIn | tLt | tLte | tNe | tNin
  | tAnd | tNor | tNot | tOr
  | tType | tExists
  | tMod | tRegex | tOptions | tText | tWhere
  | tAll | tElemMatch | tSize
  | tComment | tExpr
  | tNoop | tNotImpl
  | tMatch | tExtract | tPathExists | tProcessCondition
  | tExprConcat | tResolveExpr | tProcessExprCondition
  | tDefinition
deriving DecidableEq

/-- Attribute suffix → tag, one entry per `_`-prefixed attribute of the
`Query` class. -/
def opTable : List (String × OpTag) :=
  [("eq", .tEq), ("gt", .tGt), ("gte", .tGte), ("in", .tIn),
   ("lt", .tLt), ("lte", .tLte), ("ne", .tNe), ("nin", .tNin),
   ("and", .tAnd), ("nor", .tNor), ("not", .tNot), ("or", .tOr),
   ("type", .tType), ("exists", .tExists),
   ("mod", .tMod), ("regex", .tRegex), ("options", .tOptions),
   ("text", .tText), ("where", .tWhere),
   ("all", .tAll), ("elemMatch", .tElemMatch), ("size", .tSize),
   ("comment", .tComment), ("expr", .tExpr),
   ("noop", .tNoop), ("not_implemented", .tNotImpl),
   ("match", .tMatch), ("extract", .tExtract),
   ("path_exists", .tPathExists), ("process_condition", .tProcessCondition),
   ("expr_concat", .tExprConcat), ("resolve_expr", .tResolveExpr),
   ("process_expr_condition", .tProcessExprCondition),
   ("definition", .tDefinition)]

/-- `getattr(self, "_" + name)` for non-underscore-leading `name`. -/
def opTagOf (name : String) : Option OpTag :=
  opTable.lookup name

/-- The `QUERY_OPS` dict of `_process_expr_condition`: comparison-operator
handlers reachable from `$expr`. -/
def queryOp : String → Option (Value → Value → Except Err Value)
  | "$eq" => some eqH
  | "$gt" => some gtH
  | "$gte" => some gteH
  | "$in" => some inH
  | "$lt" => some ltH
  | "$lte" => some lteH
  | "$ne" => some neH
  | "$nin" => some ninH
  | _ => none

/-- The non-`Mapping` branch of `Query._match`: a list entry tests
membership of the condition, anything else tests `==`.  String conditions
(single characters when a `Sequence` operator argument is a string) are
never mappings, so iterated sub-matches reduce to this. -/
def matchAtomic (condition entry : Value) : Bool :=
  match entry with
  | .arr ys => ys.any (fun y => pyEq y condition)
  | _ => pyEq condition entry

/-- `"".join(resolved)` over string values. -/
def joinStrs (rs : List Value) : String :=
  String.mk (rs.foldr (fun v acc =>
    (match v with | .str s => s.data | _ => []) ++ acc) [])

theorem lexNat2_left {a a' b b' : Nat} (h : a < a') :
    Prod.Lex (· < ·) (· < ·) (a, b) (a', b') :=
  Prod.Lex.left _ _ h

theorem lexNat2_right {a b b' : Nat} (h : b < b') :
    Prod.Lex (· < ·) (· < ·) (a, b) (a, b') :=
  Prod.Lex.right _ h

/-! ### The core matcher

`Query._match` / `Query._process_condition` and the handlers that re-enter
them, as one mutual block.  `_process_condition` is split at the `$exists`
pre-processing step: `processCondition` is the full method body and
`processCondition2` is everything from the operator dispatch on (the code
falls through to it from three places). -/

mutual

/-- `Query._match`: a `Mapping` condition is the conjunction of its
entries via `_process_condition` (truthiness of each result, short-circuit);
otherwise the literal membership/equality test. -/
def matchC : Value → Value → Except Err Bool
  | .obj kvs, entry => procCondList kvs entry
  | condition, entry => .ok (matchAtomic condition entry)
termination_by condition _ => (vs condition, 0)
decreasing_by
  all_goals try simp_wf
  all_goals first
    | (apply lexNat2_right; omega)
    | (apply lexNat2_left; simp [vs, vsL, vsKV] <;> omega)

/-- The `all(...)` generator of `Query._match` over a condition mapping's
items (also the inner conjunction of `Query._elemMatch`, which is the same
comprehension). -/
def procCondList : List (String × Value) → Value → Except Err Bool
  | [], _ => .ok true
  | (k, v) :: rest, entry => do
    let r ← processCondition k v entry
    if truthy r then procCondList rest entry else .ok false
termination_by kvs _ => (vsKV kvs, 1)
decreasing_by
  all_goals try simp_wf
  all_goals first
    | (apply lexNat2_right; omega)
    | (apply lexNat2_left; simp [vs, vsL, vsKV] <;> omega)

/-- `all(self._match(sub, entry) ...)` over list elements
(`Query._and`, and the whole body of `Query._all`). -/
def andList : List Value → Value → Except Err Bool
  | [], _ => .ok true
  | x :: xs, entry => do
    let b ← matchC x entry
    if b then andList xs entry else .ok false
termination_by xs _ => (vsL xs, 1)
decreasing_by
  all_goals try simp_wf
  all_goals first
    | (apply lexNat2_right; omega)
    | (apply lexNat2_left; simp [vs, vsL, vsKV] <;> omega)

/-- `any(self._match(sub, entry) ...)` over list elements (`Query._or`). -/
def orList : List Value → Value → Except Err Bool
  | [], _ => .ok false
  | x :: xs, entry => do
    let b ← matchC x entry
    if b then .ok true else orList xs entry
termination_by xs _ => (vsL xs, 1)
decreasing_by
  all_goals try simp_wf
  all_goals first
    | (apply lexNat2_right; omega)
    | (apply lexNat2_left; simp [vs, vsL, vsKV] <;> omega)

/-- `all(not self._match(sub, entry) ...)` over list elements
(`Query._nor`). -/
def norList : List Value → Value → Except Err Bool
  | [], _ => .ok true
  | x :: xs, entry => do
    let b ← matchC x entry
    if b then .ok false else norList xs entry
termination_by xs _ => (vsL xs, 1)
decreasing_by
  all_goals try simp_wf
  all_goals first
    | (apply lexNat2_right; omega)
    | (apply lexNat2_left; simp [vs, vsL, vsKV] <;> omega)

/-- The `any(all(...) for element in entry)` loop of `Query._elemMatch`:
first element satisfying every condition item wins. -/
def elemMatchList : List Value → List (String × Value) → Except Err Bool
  | [], _ => .ok false
  | el :: rest, kvs => do
    let b ← procCondList kvs el
    if b then .ok true else elemMatchList rest kvs
termination_by elems kvs => (vsKV kvs, 10 + elems.length)
decreasing_by
  all_goals try simp_wf
  all_goals first
    | (apply lexNat2_right; omega)
    | (apply lexNat2_left; simp [vs, vsL, vsKV] <;> omega)

/-- The `all(...)` conjunction of `Query._expr` over the condition
mapping's items. -/
def exprCondList : List (String × Value) → Value → Except Err Bool
  | [], _ => .ok true
  | (k, v) :: rest, entry => do
    let r ← processExprCondition k v entry
    if truthy r then exprCondList rest entry else .ok false
termination_by kvs _ => (vsKV kvs, 1)
decreasing_by
  all_goals try simp_wf
  all_goals first
    | (apply lexNat2_right; omega)
    | (apply lexNat2_left; simp [vs, vsL, vsKV] <;> omega)

/-- Elementwise `_resolve_expr` over a list (the list comprehensions of
`_resolve_expr`, `_expr_concat` and `_process_expr_condition`). -/
def resolveList : List Value → Value → Except Err (List Value)
  | [], _ => .ok []
  | x :: xs, entry => do
    let v ← resolveExpr x entry
    let rest ← resolveList xs entry
    .ok (v :: rest)
termination_by xs _ => (vsL xs, 1)
decreasing_by
  all_goals try simp_wf
  all_goals first
    | (apply lexNat2_right; omega)
    | (apply lexNat2_left; simp [vs, vsL, vsKV] <;> omega)

/-- `Query._expr_concat`: the condition must be a `Sequence` (assert);
every element resolves via `_resolve_expr`; all resolved values must be
strings, else `QueryError`; result is their concatenation. -/
def exprConcat : Value → Value → Except Err Value
  | .arr xs, entry => do
    let rs ← resolveList xs entry
    if rs.all isInstStr then .ok (.str (joinStrs rs))
    else .error (.queryError "$concat with non-string references")
  | .str s, entry => do
    let rs ← resolveCharsExpr s.data entry
    if rs.all isInstStr then .ok (.str (joinStrs rs))
    else .error (.queryError "$concat with non-string references")
  | _, _ => .error .assertionError
termination_by condition _ => (vs condition, 20)
decreasing_by
  all_goals try simp_wf
  all_goals first
    | (apply lexNat2_right; omega)
    | (apply lexNat2_left; simp [vs, vsL, vsKV] <;> omega)

/-- `Query._resolve_expr`: a single-key mapping dispatches to the
`_expr_`-prefixed operator (`_expr_concat` is the only one; the key's
first character is stripped whatever it is; other keys raise `QueryError`;
more or fewer keys fail the `len == 1` assert); a non-string sequence
resolves elementwise; a `$`-prefixed string is a field reference resolved
by `_extract`; anything else is a literal. -/
def resolveExpr : Value → Value → Except Err Value
  | .obj kvs, entry =>
    match kvs with
    | [(k, v)] =>
      if strDrop1 k == "concat" then exprConcat v entry
      else .error (.queryError (k ++ " operator in $expr is not supported"))
    | _ => .error .assertionError
  | .arr xs, entry => (resolveList xs entry).map .arr
  | .str s, entry => resolveStrExpr s entry
  | condition, _ => .ok condition
termination_by condition _ => (vs condition, 30)
decreasing_by
  all_goals try simp_wf
  all_goals first
    | (apply lexNat2_right; omega)
    | (apply lexNat2_left; simp [vs, vsL, vsKV] <;> omega)

/-- `Query._process_expr_condition`: asserts the operator is `$`-prefixed
and the condition a `Sequence`; a `QUERY_OPS` comparison operator asserts
exactly two elements, resolves both, and applies the handler with the
resolved pair swapped (`handler(resolved[1], resolved[0])`); otherwise the
`_expr_`-dispatch (only `$concat`) or `QueryError`. -/
def processExprCondition : String → Value → Value → Except Err Value
  | op, condition, entry =>
    if !strStartsDollar op then .error .assertionError
    else
      match condition with
      | .arr xs =>
        (match queryOp op with
         | some f =>
           match xs with
           | [a, b] => do
             let r₀ ← resolveExpr a entry
             let r₁ ← resolveExpr b entry
             f r₁ r₀
           | _ => .error .assertionError
         | none =>
           if strDrop1 op == "concat" then exprConcat condition entry
           else .error (.queryError (op ++ " operator in $expr is not supported")))
      | .str s =>
        (match queryOp op with
         | some f =>
           match s.data with
           | [c₁, c₂] => do
             let r₀ ← resolveStrExpr (charToStr c₁) entry
             let r₁ ← resolveStrExpr (charToStr c₂) entry
             f r₁ r₀
           | _ => .error .assertionError
         | none =>
           if strDrop1 op == "concat" then exprConcat condition entry
           else .error (.queryError (op ++ " operator in $expr is not supported")))
      | _ => .error .assertionError
termination_by _ condition _ => (vs condition, 40)
decreasing_by
  all_goals try simp_wf
  all_goals first
    | (apply lexNat2_right; omega)
    | (apply lexNat2_left; simp [vs, vsL, vsKV] <;> omega)

/-- `Query._elemMatch`: a non-`Sequence` entry is `False`; a sequence
entry (a string iterates its characters) succeeds iff some element
satisfies every condition item.  Touching `.items()` of a non-`Mapping`
condition raises `AttributeError`, which the `getattr` `try` in
`_process_condition` converts to the unsupported-operator `QueryError`;
with an empty sequence entry the generator never runs, so that error
cannot occur. -/
def elemMatchH : Value → Value → Except Err Value
  | condition, .arr elems =>
    (match elems with
     | [] => .ok (.bool false)
     | _ :: _ =>
       match h : condition with
       | .obj kvs => (elemMatchList elems kvs).map .bool
       | _ => .error (.queryError "$elemMatch operator is not supported"))
  | condition, .str s =>
    (match s.data with
     | [] => .ok (.bool false)
     | _ :: _ =>
       match h : condition with
       | .obj kvs =>
         (elemMatchList (s.data.map (fun c => .str (charToStr c))) kvs).map .bool
       | _ => .error (.queryError "$elemMatch operator is not supported"))
  | _, _ => .ok (.bool false)
termination_by condition _ => (vs condition, 40)
decreasing_by
  all_goals try simp_wf
  all_goals first
    | (apply lexNat2_right; omega)
    | (apply lexNat2_left; simp [vs, vsL, vsKV] <;> omega)
    | (subst h; apply lexNat2_left; simp [vs, vsL, vsKV] <;> omega)

/-- `Query._and`: the condition must be a `Sequence` (a string iterates
its one-character substrings, which are never mappings, so their
sub-matches are the atomic membership/equality test); anything else raises
`QueryError`. -/
def andH : Value → Value → Except Err Value
  | .arr xs, entry => (andList xs entry).map .bool
  | .str s, entry =>
    .ok (.bool (s.data.all (fun c => matchAtomic (.str (charToStr c)) entry)))
  | _, _ => .error (.queryError "$and has been attributed incorrect argument")
termination_by condition _ => (vs condition, 45)
decreasing_by
  all_goals try simp_wf
  all_goals first
    | (apply lexNat2_right; omega)
    | (apply lexNat2_left; simp [vs, vsL, vsKV] <;> omega)

/-- `Query._or`: as `_and` with `any`. -/
def orH : Value → Value → Except Err Value
  | .arr xs, entry => (orList xs entry).map .bool
  | .str s, entry =>
    .ok (.bool (s.data.any (fun c => matchAtomic (.str (charToStr c)) entry)))
  | _, _ => .error (.queryError "$or has been attributed incorrect argument")
termination_by condition _ => (vs condition, 45)
decreasing_by
  all_goals try simp_wf
  all_goals first
    | (apply lexNat2_right; omega)
    | (apply lexNat2_left; simp [vs, vsL, vsKV] <;> omega)

/-- `Query._nor`: as `_and` with every sub-match negated. -/
def norH : Value → Value → Except Err Value
  | .arr xs, entry => (norList xs entry).map .bool
  | .str s, entry =>
    .ok (.bool (s.data.all (fun c => !matchAtomic (.str (charToStr c)) entry)))
  | _, _ => .error (.queryError "$nor has been attributed incorrect argument")
termination_by condition _ => (vs condition, 45)
decreasing_by
  all_goals try simp_wf
  all_goals first
    | (apply lexNat2_right; omega)
    | (apply lexNat2_left; simp [vs, vsL, vsKV] <;> omega)

/-- `Query._all`: `all(self._match(item, entry))` over whatever iterating
the condition yields — list elements, string characters, or dict keys;
iterating a non-iterable raises `TypeError`. -/
def allH : Value → Value → Except Err Value
  | .arr xs, entry => (andList xs entry).map .bool
  | .str s, entry =>
    .ok (.bool (s.data.all (fun c => matchAtomic (.str (charToStr c)) entry)))
  | .obj kvs, entry =>
    .ok (.bool (kvs.all (fun kv => matchAtomic (.str kv.1) entry)))
  | _, _ => .error (.typeError "object is not iterable")
termination_by condition _ => (vs condition, 45)
decreasing_by
  all_goals try simp_wf
  all_goals first
    | (apply lexNat2_right; omega)
    | (apply lexNat2_left; simp [vs, vsL, vsKV] <;> omega)

/-- `Query._expr`: asserts the condition is a `Mapping`, then conjoins
`_process_expr_condition` over its items. -/
def exprH : Value → Value → Except Err Value
  | .obj kvs, entry => (exprCondList kvs entry).map .bool
  | _, _ => .error .assertionError
termination_by condition _ => (vs condition, 45)
decreasing_by
  all_goals try simp_wf
  all_goals first
    | (apply lexNat2_right; omega)
    | (apply lexNat2_left; simp [vs, vsL, vsKV] <;> omega)

/-- Steps 2–4 of `Query._process_condition`: `$`-operator dispatch through
the attribute table (unknown names raise `QueryError` naming the
operator), or a plain dotted field path resolved by `_extract`
(`IndexError` caught as `_Undefined()`) and matched recursively. -/
def processCondition2 : String → Value → Value → Except Err Value
  | op, condition, entry =>
    if strStartsDollar op then
      match opTagOf (strDrop1 op) with
      | none => .error (.queryError (op ++ " operator is not supported"))
      | some t =>
        match t with
        | .tEq => eqH condition entry
        | .tGt => gtH condition entry
        | .tGte => gteH condition entry
        | .tIn => inH condition entry
        | .tLt => ltH condition entry
        | .tLte => lteH condition entry
        | .tNe => neH condition entry
        | .tNin => ninH condition entry
        | .tAnd => andH condition entry
        | .tOr => orH condition entry
        | .tNor => norH condition entry
        | .tNot => (matchC condition entry).map (fun b => .bool !b)
        | .tType => typeH condition entry
        | .tExists => .ok (.bool true)
        | .tMod => modH condition entry
        | .tRegex => regexH condition entry
        | .tOptions => .error .notImplementedError
        | .tText => .error .notImplementedError
        | .tWhere => .error .notImplementedError
        | .tAll => allH condition entry
        | .tElemMatch => elemMatchH condition entry
        | .tSize => sizeH condition entry
        | .tComment => .ok (.bool true)
        | .tExpr => exprH condition entry
        | .tNoop => .ok (.bool true)
        | .tNotImpl => .error .notImplementedError
        | .tMatch => (matchC condition entry).map .bool
        | .tExtract => .error .unmodeled
        | .tPathExists => .error .unmodeled
        | .tProcessCondition => .error .unmodeled
        | .tExprConcat => .error .unmodeled
        | .tResolveExpr => .error .unmodeled
        | .tProcessExprCondition => .error .unmodeled
        | .tDefinition => .error (.typeError "Value object is not callable")
    else do
      let ex ← extractCaught entry (splitDot op)
      (matchC condition ex).map .bool
termination_by op condition _ => (vs condition, 50)
decreasing_by
  all_goals try simp_wf
  all_goals first
    | (apply lexNat2_right; omega)
    | (apply lexNat2_left; simp [vs, vsL, vsKV] <;> omega)

/-- `Query._process_condition`.  Step 1: a `Mapping` condition containing
`$exists` either delegates entirely to `_path_exists` (dotted key — this
subsumes any sibling condition keys), or compares the `$exists` value
against `operator in entry` (`False` on mismatch, immediate `True` when
`$exists` is the only key), falling through otherwise; then operator
dispatch / path matching (`processCondition2`). -/
def processCondition : String → Value → Value → Except Err Value
  | op, condition, entry =>
    match condition with
    | .obj kvs =>
      if objHasKey kvs "$exists" then
        if strContainsDot op then
          pathExists (splitDot op) ((objLookup kvs "$exists").getD .undefined) entry
        else do
          let contained ← pyContains entry (.str op)
          if !pyEq ((objLookup kvs "$exists").getD .undefined) (.bool contained) then
            .ok (.bool false)
          else if kvs.map Prod.fst == ["$exists"] then .ok (.bool true)
          else processCondition2 op (.obj kvs) entry
      else processCondition2 op (.obj kvs) entry
    | other => processCondition2 op other entry
termination_by _ condition _ => (vs condition, 60)
decreasing_by
  all_goals try simp_wf
  all_goals first
    | (apply lexNat2_right; omega)
    | (apply lexNat2_left; simp [vs, vsL, vsKV] <;> omega)

end

/-- `Query(definition).match(entry)`. -/
def mongoMatch (definition entry : Value) : Except Err Bool :=
  matchC definition entry

/-- Did `_path_exists` on this element produce a result `==` the wanted
value?  (The short-circuit test of the `_path_exists` element loop, as a
boolean; used to state theorems about the loop.) -/
def pathHit (keys : List String) (condition : Value) (e : Value) : Bool :=
  match pathExists keys condition e with
  | .ok v => pyEq v condition
  | .error _ => false

/-- Does this entry element satisfy every item of the `$elemMatch`
condition?  (The inner conjunction of `Query._elemMatch`, as a boolean;
used to state theorems about the element loop.) -/
def elemHit (kvs : List (String × Value)) (el : Value) : Bool :=
  match procCondList kvs el with
  | .ok b => b
  | .error _ => false

/-! ### Helper lemmas -/

theorem vs_pos (v : Value) : 1 ≤ vs v := by
  cases v <;> simp [vs]

theorem lookup_eq_none_of_not_mem {β : Type} :
    ∀ (l : List (String × β)) (a : String), a ∉ l.map Prod.fst → l.lookup a = none := by
  intro l a h
  induction l with
  | nil => rfl
  | cons kv rest ih =>
    obtain ⟨k, b⟩ := kv
    simp only [List.map_cons, List.mem_cons] at h
    push_neg at h
    have hne : (a == k) = false := by
      simp [beq_eq_false_iff_ne]
      exact h.1
    simp only [List.lookup, hne]
    exact ih h.2

/-! Equation lemmas for `extract` (its dependent matches block plain
`simp` rewriting of the scrutinees). -/

theorem extract_nil (entry : Value) : extract entry [] = .ok entry := by
  simp [extract]

theorem extract_arr_idx {p : String} {i : Int} {xs : List Value} {x : Value}
    (hp : parsePyInt p = some i) (hx : pyListIndex xs i = some x) (ps : List String) :
    extract (.arr xs) (p :: ps) = extract x ps := by
  simp only [extract, hp]
  split
  · rename_i x' h'
    rw [hx] at h'
    cases h'
    rfl
  · rename_i h'
    rw [hx] at h'
    cases h'

theorem extract_arr_idx_none {p : String} {i : Int} {xs : List Value}
    (hp : parsePyInt p = some i) (hx : pyListIndex xs i = none) (ps : List String) :
    extract (.arr xs) (p :: ps) = .error .indexError := by
  simp only [extract, hp]
  split
  · rename_i x' h'
    rw [hx] at h'
    cases h'
  · rfl

theorem extract_arr_fan {p : String} (hp : parsePyInt p = none)
    (xs : List Value) (ps : List String) :
    extract (.arr xs) (p :: ps) = (extractFan xs (p :: ps)).map .arr := by
  simp [extract, hp]

theorem extract_obj_some {kvs : List (String × Value)} {p : String} {v : Value}
    (hk : objLookup kvs p = some v) (ps : List String) :
    extract (.obj kvs) (p :: ps) = extract v ps := by
  simp only [extract]
  split
  · rename_i v' h'
    rw [hk] at h'
    cases h'
    rfl
  · rename_i h'
    rw [hk] at h'
    cases h'

theorem extract_obj_none {kvs : List (String × Value)} {p : String}
    (hk : objLookup kvs p = none) (ps : List String) :
    extract (.obj kvs) (p :: ps) = .ok .undefined := by
  simp only [extract]
  split
  · rename_i v' h'
    rw [hk] at h'
    cases h'
  · rfl

/-- `extractFan` is exactly elementwise `extract` (`mapM`): the fan-out
applies `_extract` independently to every element and collects the
results. -/
theorem extractFan_eq_mapM :
    ∀ (xs : List Value) (path : List String),
      extractFan xs path = xs.mapM (fun item => extract item path) := by
  intro xs path
  induction xs with
  | nil =>
    rw [List.mapM_nil]
    simp [extractFan, pure, Except.pure]
  | cons x rest ih =>
    rw [List.mapM_cons]
    simp [extractFan, ih, bind, Except.bind, pure, Except.pure]

/-- The only exception `_extract` can raise is `IndexError`; every other
input resolves to a value. -/
theorem extract_ok_or_indexError :
    ∀ (n : Nat),
      (∀ (entry : Value) (path : List String), vs entry ≤ n →
        (∃ v, extract entry path = .ok v) ∨ extract entry path = .error .indexError) ∧
      (∀ (xs : List Value) (path : List String), vsL xs ≤ n →
        (∃ l, extractFan xs path = .ok l) ∨ extractFan xs path = .error .indexError) := by
  intro n
  induction n with
  | zero =>
    constructor
    · intro entry path h
      have := vs_pos entry
      omega
    · intro xs path h
      cases xs with
      | nil => exact .inl ⟨[], by simp [extractFan]⟩
      | cons x rest =>
        have := vs_pos x
        simp [vsL] at h
  | succ n ih =>
    constructor
    · intro entry path hle
      cases path with
      | nil => exact .inl ⟨entry, extract_nil entry⟩
      | cons p ps =>
        cases entry with
        | null => exact .inl ⟨.null, by simp [extract]⟩
        | arr xs =>
          cases hp : parsePyInt p with
          | some i =>
            cases hx : pyListIndex xs i with
            | some x =>
              have hlt := vs_lt_vsL_of_pyListIndex hx
              have hx2 : vs x ≤ n := by
                simp [vs] at hle
                omega
              rw [extract_arr_idx hp hx]
              exact ih.1 x ps hx2
            | none => exact .inr (extract_arr_idx_none hp hx ps)
          | none =>
            have hxs : vsL xs ≤ n := by
              simp [vs] at hle
              omega
            rw [extract_arr_fan hp]
            rcases (ih.2 xs (p :: ps) hxs) with ⟨l, hl⟩ | hl
            · exact .inl ⟨.arr l, by simp [hl, Except.map]⟩
            · exact .inr (by simp [hl, Except.map])
        | obj kvs =>
          cases hk : objLookup kvs p with
          | some v =>
            have hlt := vs_lt_vsKV_of_objLookup hk
            have hv2 : vs v ≤ n := by
              simp [vs] at hle
              omega
            rw [extract_obj_some hk]
            exact ih.1 v ps hv2
          | none => exact .inl ⟨.undefined, extract_obj_none hk ps⟩
        | bool b => exact .inl ⟨.undefined, by simp [extract]⟩
        | int m => exact .inl ⟨.undefined, by simp [extract]⟩
        | str s => exact .inl ⟨.undefined, by simp [extract]⟩
        | undefined => exact .inl ⟨.undefined, by simp [extract]⟩
    · intro xs path hle
      cases xs with
      | nil => exact .inl ⟨[], by simp [extractFan]⟩
      | cons x rest =>
        have hvx := vs_pos x
        have hx : vs x ≤ n := by
          simp [vsL] at hle
          omega
        have hr : vsL rest ≤ n := by
          simp [vsL] at hle
          omega
        rcases (ih.1 x path hx) with ⟨v, hv⟩ | hv
        · rcases (ih.2 rest path hr) with ⟨l, hl⟩ | hl
          · exact .inl ⟨v :: l, by simp [extractFan, hv, hl, bind, Except.bind]⟩
          · exact .inr (by simp [extractFan, hv, hl, bind, Except.bind])
        · exact .inr (by simp [extractFan, hv, bind, Except.bind])

/-- `extract` wrapped in the caller's `IndexError` handler never raises. -/
theorem extractCaught_total (entry : Value) (path : List String) :
    ∃ v, extractCaught entry path = .ok v := by
  rcases ((extract_ok_or_indexError (vs entry)).1 entry path (Nat.le_refl _)) with ⟨v, hv⟩ | hv
  · exact ⟨v, by simp [extractCaught, hv]⟩
  · exact ⟨.undefined, by simp [extractCaught, hv]⟩

/-! Dispatch facts for the operator names used below (kernel-evaluated). -/

theorem opTagOf_dollar_and : opTagOf (strDrop1 "$and") = some OpTag.tAnd := rfl

theorem opTagOf_dollar_or : opTagOf (strDrop1 "$or") = some OpTag.tOr := rfl

theorem opTagOf_dollar_nor : opTagOf (strDrop1 "$nor") = some OpTag.tNor := rfl

theorem opTagOf_dollar_not : opTagOf (strDrop1 "$not") = some OpTag.tNot := rfl

/-! ### C1 — algebra of the logical operators -/

/-- C1 (amended): for sub-matches that do not error, `$and`, `$or` and
`$nor` on a two-element query array are exactly conjunction, disjunction
and joint denial of the sub-match results; `$not` is negation **provided**
the sub-query is not a mapping containing the key `$exists` — such a
condition is intercepted by the `$exists` pre-processing step of
`_process_condition` before the `$not` handler is consulted. -/
theorem c1_logical_operator_algebra (q₁ q₂ r : Value) (b₁ b₂ : Bool)
    (h₁ : matchC q₁ r = .ok b₁) (h₂ : matchC q₂ r = .ok b₂) :
    mongoMatch (.obj [("$and", .arr [q₁, q₂])]) r = .ok (b₁ && b₂) ∧
    mongoMatch (.obj [("$or", .arr [q₁, q₂])]) r = .ok (b₁ || b₂) ∧
    mongoMatch (.obj [("$nor", .arr [q₁, q₂])]) r = .ok (!b₁ && !b₂) ∧
    ((∀ kvs, q₁ = Value.obj kvs → objHasKey kvs "$exists" = false) →
      mongoMatch (.obj [("$not", q₁)]) r = .ok (!b₁)) := by
  refine ⟨?_, ?_, ?_, ?_⟩
  · simp [mongoMatch, matchC, procCondList, processCondition, processCondition2,
      opTagOf_dollar_and, show strStartsDollar "$and" = true from rfl,
      andH, andList, truthy, bind, Except.bind, Except.map, h₁, h₂]
    cases b₁ <;> cases b₂ <;>
      simp [andH, andList, truthy, h₂, bind, Except.bind, procCondList]
  · simp [mongoMatch, matchC, procCondList, processCondition, processCondition2,
      opTagOf_dollar_or, show strStartsDollar "$or" = true from rfl,
      orH, orList, truthy, bind, Except.bind, Except.map, h₁, h₂]
    cases b₁ <;> cases b₂ <;>
      simp [orH, orList, truthy, h₂, bind, Except.bind, procCondList]
  · simp [mongoMatch, matchC, procCondList, processCondition, processCondition2,
      opTagOf_dollar_nor, show strStartsDollar "$nor" = true from rfl,
      norH, norList, truthy, bind, Except.bind, Except.map, h₁, h₂]
    cases b₁ <;> cases b₂ <;>
      simp [norH, norList, truthy, h₂, bind, Except.bind, procCondList]
  · intro hq
    cases q₁ with
    | obj kvs =>
      have hk := hq kvs rfl
      simp [mongoMatch, matchC, procCondList, processCondition, hk,
        processCondition2, opTagOf_dollar_not,
        show strStartsDollar "$not" = true from rfl,
        bind, Except.bind, Except.map, h₁, truthy]
      cases b₁ <;> simp_all [procCondList, truthy]
    | _ =>
      simp [mongoMatch, matchC, procCondList, processCondition, processCondition2,
        opTagOf_dollar_not, show strStartsDollar "$not" = true from rfl,
        bind, Except.bind, Except.map, h₁, truthy]
      cases b₁ <;> simp_all [procCondList, truthy]

/-- C1 counterexample to the claim as stated: with `q₁ = {"$exists": false}`
and `r = {}`, `match(q₁, r)` is `True` (top-level `$exists` dispatches to
the no-op handler), yet `match({"$not": q₁}, r)` is **also** `True`: the
`$exists` pre-processing step of `_process_condition` answers before the
`$not` handler runs, so `$not` is not the negation of the sub-match. -/
theorem c1_counterexample :
    mongoMatch (.obj [("$not", .obj [("$exists", .bool false)])]) (.obj []) = .ok true ∧
    mongoMatch (.obj [("$exists", .bool false)]) (.obj []) = .ok true := by
  constructor
  · simp [mongoMatch, matchC, procCondList, processCondition, processCondition2,
      objHasKey, objLookup, strStartsDollar, strDrop1, opTagOf, opTable,
      strContainsDot, pyContains, pyEq, truthy, List.lookup,
      bind, Except.bind, Except.map, matchAtomic]
  · simp [mongoMatch, matchC, procCondList, processCondition, processCondition2,
      objHasKey, objLookup, strStartsDollar, strDrop1, opTagOf, opTable,
      strContainsDot, pyContains, pyEq, truthy, List.lookup,
      bind, Except.bind, Except.map, matchAtomic]

/-- C1 witness: the amended theorem applied at `q₁ = {"a": 1}` (matches),
`q₂ = {"b": 2}` (does not match) against `r = {"a": 1, "b": 3}`. -/
theorem c1_witness :
    mongoMatch (.obj [("$and", .arr [.obj [("a", .int 1)], .obj [("b", .int 2)]])])
      (.obj [("a", .int 1), ("b", .int 3)]) = .ok false ∧
    mongoMatch (.obj [("$or", .arr [.obj [("a", .int 1)], .obj [("b", .int 2)]])])
      (.obj [("a", .int 1), ("b", .int 3)]) = .ok true ∧
    mongoMatch (.obj [("$nor", .arr [.obj [("a", .int 1)], .obj [("b", .int 2)]])])
      (.obj [("a", .int 1), ("b", .int 3)]) = .ok false ∧
    mongoMatch (.obj [("$not", .obj [("a", .int 1)])])
      (.obj [("a", .int 1), ("b", .int 3)]) = .ok false := by
  have h₁ : matchC (.obj [("a", .int 1)]) (.obj [("a", .int 1), ("b", .int 3)]) = .ok true := by
    simp [matchC, procCondList, processCondition, processCondition2, matchAtomic,
      objHasKey, objLookup, strStartsDollar, strContainsDot, splitDot, splitCharsOn,
      parsePyInt, extract, extractFan, extractCaught, pyEq, truthy,
      bind, Except.bind, Except.map]
  have h₂ : matchC (.obj [("b", .int 2)]) (.obj [("a", .int 1), ("b", .int 3)]) = .ok false := by
    simp [matchC, procCondList, processCondition, processCondition2, matchAtomic,
      objHasKey, objLookup, strStartsDollar, strContainsDot, splitDot, splitCharsOn,
      parsePyInt, extract, extractFan, extractCaught, pyEq, truthy,
      bind, Except.bind, Except.map]
  obtain ⟨ha, ho, hn, hno⟩ :=
    c1_logical_operator_algebra (.obj [("a", .int 1)]) (.obj [("b", .int 2)])
      (.obj [("a", .int 1), ("b", .int 3)]) true false h₁ h₂
  refine ⟨ha, ho, hn, hno ?_⟩
  intro kvs hk
  cases hk
  simp [objHasKey, objLookup]

/-! ### C2 — unsupported `$`-operators -/

/-- C2 (amended): a `$`-prefixed key raises the unsupported-operator
`QueryError` (naming the operator) exactly when the stripped name is not
an attribute of the `Query` class; names such as `$noop`, `$match` or
`$not_implemented` resolve to internal methods and are invoked instead.
The stripped name is assumed not to start with `_` (underscore-leading
names can reach attributes inherited from `object`, outside the modelled
table) and the condition is assumed not to be intercepted by the `$exists`
pre-processing step.  `match({"$bogus": 1}, {})` does fail with the
`QueryError`. -/
theorem c2_unsupported_operator (name : String) (condition entry : Value)
    (hu : strStartsUnderscore name = false)
    (hnm : name ∉ opTable.map Prod.fst)
    (hex : ∀ kvs, condition = Value.obj kvs → objHasKey kvs "$exists" = false) :
    processCondition ("$" ++ name) condition entry
      = .error (.queryError (("$" ++ name) ++ " operator is not supported")) ∧
    mongoMatch (.obj [("$bogus", .int 1)]) (.obj [])
      = .error (.queryError "$bogus operator is not supported") := by
  constructor
  · have hdollar : strStartsDollar ("$" ++ name) = true := by
      simp [strStartsDollar, String.data_append]
    have hdrop : strDrop1 ("$" ++ name) = name := by
      obtain ⟨d⟩ := name
      simp [strDrop1, String.data_append]
    have hlook : opTagOf name = none := lookup_eq_none_of_not_mem _ _ hnm
    have h2 : processCondition2 ("$" ++ name) condition entry
        = .error (.queryError (("$" ++ name) ++ " operator is not supported")) := by
      simp [processCondition2, hdollar, hdrop, hlook]
    cases condition with
    | obj kvs =>
      have hk := hex kvs rfl
      simp [processCondition, hk, h2]
    | _ => simp [processCondition, h2]
  · simp [mongoMatch, matchC, procCondList, processCondition, processCondition2,
      objHasKey, objLookup, strStartsDollar, strDrop1, opTagOf, opTable,
      List.lookup, bind, Except.bind, Except.map]

/-- C2 counterexample to the claim as stated: `$noop` is a `$`-prefixed
name outside the documented operator set, yet `match({"$noop": 1}, {})`
succeeds (returns `True`) instead of failing with a `QueryError`, because
`getattr` finds the internal `_noop` method. -/
theorem c2_counterexample :
    mongoMatch (.obj [("$noop", .int 1)]) (.obj []) = .ok true := by
  simp [mongoMatch, matchC, procCondList, processCondition, processCondition2,
    objHasKey, objLookup, strStartsDollar, strDrop1, opTagOf, opTable,
    List.lookup, truthy, bind, Except.bind, Except.map]

/-- C2 witness: the theorem applied at `name = "bogus"`. -/
theorem c2_witness :
    strStartsUnderscore "bogus" = false ∧
    "bogus" ∉ opTable.map Prod.fst ∧
    processCondition ("$" ++ "bogus") (.int 1) (.obj [])
      = .error (.queryError (("$" ++ "bogus") ++ " operator is not supported")) := by
  refine ⟨rfl, by decide, ?_⟩
  exact (c2_unsupported_operator "bogus" (.int 1) (.obj []) rfl (by decide)
    (fun kvs hk => by cases hk)).1

/-! ### C3 — array fan-out in the path resolver -/

/-- C3: on an ordered-sequence record whose head path segment does not
parse as an integer, `_extract` fans out: it maps itself with the **full**
path over every element and collects the results into a new list; in
particular `extract([{"a":1},{"a":2},{"a":3}], ["a"])` is `[1,2,3]`. -/
theorem c3_extract_fan_out :
    (∀ (xs : List Value) (p : String) (ps : List String),
      parsePyInt p = none →
      extract (.arr xs) (p :: ps)
        = (xs.mapM (fun item => extract item (p :: ps))).map Value.arr) ∧
    extract (.arr [.obj [("a", .int 1)], .obj [("a", .int 2)], .obj [("a", .int 3)]]) ["a"]
      = .ok (.arr [.int 1, .int 2, .int 3]) := by
  constructor
  · intro xs p ps hp
    rw [extract_arr_fan hp, extractFan_eq_mapM]
  · simp [extract, extractFan, parsePyInt, objLookup, Except.map, bind, Except.bind]

/-- C3 witness: the fan-out equation applied at `entry = [7]`,
`path = ["a"]`. -/
theorem c3_witness :
    parsePyInt "a" = none ∧
    extract (.arr [.int 7]) ["a"]
      = (([.int 7] : List Value).mapM (fun item => extract item ["a"])).map Value.arr :=
  ⟨rfl, c3_extract_fan_out.1 [.int 7] "a" [] rfl⟩

/-! ### C4 — `_path_exists` on dotted `$exists` paths -/

/-- The element loop of `_path_exists`, characterised: when no element's
recursive walk raises, it returns the wanted value iff some element's
result `==` it, and the negation otherwise. -/
theorem pathExistsAny_characterisation (keys : List String) (cond : Value) :
    ∀ (elems : List Value),
      (∀ e ∈ elems, ∃ v, pathExists keys cond e = .ok v) →
      pathExistsAny keys cond elems
        = .ok (if elems.any (pathHit keys cond) then cond else pyNotV cond) := by
  intro elems
  induction elems with
  | nil => intro _; simp [pathExistsAny]
  | cons e es ih =>
    intro hall
    obtain ⟨v, hv⟩ := hall e (List.mem_cons_self e es)
    have htail := ih (fun x hx => hall x (List.mem_cons_of_mem e hx))
    cases hpe : pyEq v cond with
    | true =>
      simp only [pathExistsAny, hv, bind, Except.bind, hpe, List.any_cons,
        pathHit, if_true]
      simp [pathHit, hv, hpe]
    | false =>
      simp only [pathExistsAny, hv, bind, Except.bind, hpe, List.any_cons]
      have hhit : pathHit keys cond e = false := by
        simp [pathHit, hv, hpe]
      simp [hhit, htail]

/-- C4: on a sequence record with a non-numeric current segment,
`_path_exists` recurses over every element with the remaining segment
list, returning the wanted value as soon as one element's recursive check
`==` it and its negation otherwise; a failed segment lookup (here: a
mapping without the key) also returns the negation.  Consequently
`match({"items.x": {"$exists": true}}, {"items":[{"x":1},{"y":2}]})` is
`True` and the same query for `"items.z"` is `False`. -/
theorem c4_path_exists_dotted (k : String) (rest : List String) (cond : Value) :
    (∀ (elems : List Value),
      pyIsDigit k = false →
      (∀ e ∈ elems, ∃ v, pathExists (k :: rest) cond e = .ok v) →
      pathExists (k :: rest) cond (.arr elems)
        = .ok (if elems.any (pathHit (k :: rest) cond) then cond else pyNotV cond)) ∧
    (∀ (kvs : List (String × Value)),
      objLookup kvs k = none →
      pathExists (k :: rest) cond (.obj kvs) = .ok (pyNotV cond)) ∧
    mongoMatch (.obj [("items.x", .obj [("$exists", .bool true)])])
      (.obj [("items", .arr [.obj [("x", .int 1)], .obj [("y", .int 2)]])]) = .ok true ∧
    mongoMatch (.obj [("items.z", .obj [("$exists", .bool true)])])
      (.obj [("items", .arr [.obj [("x", .int 1)], .obj [("y", .int 2)]])]) = .ok false := by
  refine ⟨?_, ?_, ?_, ?_⟩
  · intro elems hk hall
    have hstep : pathExists (k :: rest) cond (.arr elems)
        = pathExistsAny (k :: rest) cond elems := by
      simp [pathExists, hk]
    rw [hstep]
    exact pathExistsAny_characterisation (k :: rest) cond elems hall
  · intro kvs hk2
    simp only [pathExists]
    split
    · rename_i v h'
      rw [hk2] at h'
      cases h'
    · rfl
  · simp [mongoMatch, matchC, procCondList, processCondition, processCondition2,
      objHasKey, objLookup, strStartsDollar, strDrop1, opTagOf, opTable,
      strContainsDot, pyContains, pyEq, truthy, List.lookup,
      bind, Except.bind, Except.map, matchAtomic,
      pathExists, pathExistsAny, splitDot, splitCharsOn, pyIsDigit, pyNotV,
      pyListIndex, digitsToNat]
  · simp [mongoMatch, matchC, procCondList, processCondition, processCondition2,
      objHasKey, objLookup, strStartsDollar, strDrop1, opTagOf, opTable,
      strContainsDot, pyContains, pyEq, truthy, List.lookup,
      bind, Except.bind, Except.map, matchAtomic,
      pathExists, pathExistsAny, splitDot, splitCharsOn, pyIsDigit, pyNotV,
      pyListIndex, digitsToNat]

/-- C4 witness: the fan-out clause applied at segment `"x"`, wanted value
`True`, over the one-element array `[{"x": 1}]`, and the missing-key
clause at the empty mapping. -/
theorem c4_witness :
    pyIsDigit "x" = false ∧
    pathExists ["x"] (.bool true) (.arr [.obj [("x", .int 1)]])
      = .ok (if ([.obj [("x", .int 1)]] : List Value).any (pathHit ["x"] (.bool true))
             then .bool true else pyNotV (.bool true)) ∧
    pathExists ["x"] (.bool true) (.obj []) = .ok (pyNotV (.bool true)) := by
  refine ⟨rfl, ?_, ?_⟩
  · refine (c4_path_exists_dotted "x" [] (.bool true)).1 [.obj [("x", .int 1)]] rfl ?_
    intro e he
    simp only [List.mem_singleton] at he
    subst he
    refine ⟨.bool true, ?_⟩
    simp [pathExists, pathExistsAny, pyIsDigit, objLookup, bind, Except.bind, pyEq]
  · exact (c4_path_exists_dotted "x" [] (.bool true)).2.1 [] rfl

/-! ### C5 — total, `Undefined`-valued path resolution -/

/-- C5: path resolution through the caller's `IndexError` handler never
raises: every record/path pair yields a value; a mapping without the head
key yields `_Undefined()`, as does an out-of-range index; and the
`_Undefined()` sentinel is a fresh object unequal (under Python `==`) to
every value including `None` and distinct from `None`. -/
theorem c5_extract_never_raises :
    (∀ (entry : Value) (path : List String), ∃ v, extractCaught entry path = .ok v) ∧
    (∀ (kvs : List (String × Value)) (p : String) (ps : List String),
      objLookup kvs p = none → extractCaught (.obj kvs) (p :: ps) = .ok .undefined) ∧
    extractCaught (.arr [.int 1]) ["5"] = .ok .undefined ∧
    (∀ v : Value, pyEq Value.undefined v = false ∧ pyEq v Value.undefined = false) ∧
    Value.undefined ≠ Value.null := by
  refine ⟨extractCaught_total, ?_, ?_, ?_, ?_⟩
  · intro kvs p ps hk
    rw [extractCaught, extract_obj_none hk]
  · have h5 : parsePyInt "5" = some 5 := rfl
    have hx : pyListIndex [.int 1] 5 = none := rfl
    rw [extractCaught, extract_arr_idx_none h5 hx]
  · intro v
    constructor
    · cases v <;> simp [pyEq]
    · cases v <;> simp [pyEq]
  · intro h
    exact Value.noConfusion h

/-- C5 witness: totality at `({}, ["q"])`, the missing-key clause at
`({}, ["q", "r"])`, and undefined-vs-null disequality. -/
theorem c5_witness :
    (∃ v, extractCaught (.obj []) ["q"] = .ok v) ∧
    extractCaught (.obj []) ["q", "r"] = .ok .undefined ∧
    pyEq Value.undefined Value.null = false :=
  ⟨c5_extract_never_raises.1 (.obj []) ["q"],
   c5_extract_never_raises.2.1 [] "q" ["r"] rfl,
   (c5_extract_never_raises.2.2.2.1 Value.null).1⟩

/-! ### C6 — `$expr` comparison operand order -/

/-- C6: a `$expr` comparison operator with a two-element argument array
`[a, b]` resolves both elements via `_resolve_expr` and applies the
comparison handler as `handler(resolved(b), resolved(a))`: the first array
element is the entry-side operand and the second the condition-side
operand, reversed relative to the handler signature.  In particular
`match({"$expr": {"$gt": ["$a", "$b"]}}, {"a": 5, "b": 3})` is `True`. -/
theorem c6_expr_comparison_operand_order (op : String)
    (f : Value → Value → Except Err Value) (a b entry ra rb : Value)
    (hop : queryOp op = some f)
    (ha : resolveExpr a entry = .ok ra)
    (hb : resolveExpr b entry = .ok rb) :
    processExprCondition op (.arr [a, b]) entry = f rb ra ∧
    mongoMatch (.obj [("$expr", .obj [("$gt", .arr [.str "$a", .str "$b"])])])
      (.obj [("a", .int 5), ("b", .int 3)]) = .ok true := by
  constructor
  · have hdollar : strStartsDollar op = true := by
      unfold queryOp at hop
      split at hop <;> first | rfl | cases hop
    simp [processExprCondition, hdollar, hop, ha, hb, bind, Except.bind]
  · simp [mongoMatch, matchC, procCondList, processCondition, processCondition2,
      exprH, exprCondList, processExprCondition, resolveList, resolveExpr,
      resolveStrExpr, queryOp, gtH, pyCompare,
      show compare (5 : Int) 3 = Ordering.gt from rfl,
      objHasKey, objLookup, strStartsDollar, strDrop1, opTagOf, opTable,
      strContainsDot, splitDot, splitCharsOn, parsePyInt,
      extract, extractFan, truthy, List.lookup,
      bind, Except.bind, Except.map, matchAtomic]

/-- C6 witness: the operand-order equation applied to `$gt` with literal
operands `[3, 5]`: the handler receives `(5, 3)` and `_gt(5, 3)` tests
`3 > 5`. -/
theorem c6_witness :
    queryOp "$gt" = some gtH ∧
    processExprCondition "$gt" (.arr [.int 3, .int 5]) (.obj [])
      = gtH (.int 5) (.int 3) := by
  refine ⟨rfl, ?_⟩
  exact (c6_expr_comparison_operand_order "$gt" gtH (.int 3) (.int 5) (.obj [])
    (.int 3) (.int 5) rfl (by simp [resolveExpr]) (by simp [resolveExpr])).1

/-! ### C7 — `$elemMatch` and what counts as a sequence -/

/-- The element loop of `_elemMatch`, characterised: when no element's
condition walk raises, some element satisfying every condition item is
exactly what it reports. -/
theorem elemMatchList_characterisation (kvs : List (String × Value)) :
    ∀ (elems : List Value),
      (∀ el ∈ elems, ∃ b, procCondList kvs el = .ok b) →
      elemMatchList elems kvs = .ok (elems.any (elemHit kvs)) := by
  intro elems
  induction elems with
  | nil => intro _; simp [elemMatchList]
  | cons el els ih =>
    intro hall
    obtain ⟨b, hb⟩ := hall el (List.mem_cons_self el els)
    have htail := ih (fun x hx => hall x (List.mem_cons_of_mem el hx))
    have hhit : elemHit kvs el = b := by
      simp [elemHit, hb]
    cases b with
    | true => simp [elemMatchList, hb, bind, Except.bind, List.any_cons, hhit]
    | false => simp [elemMatchList, hb, bind, Except.bind, List.any_cons, hhit, htail]

/-- C7 (amended): `$elemMatch` returns `False` for every entry that is
not a Python `Sequence` (`None`, booleans, numbers, mappings, the
`_Undefined` sentinel); for a **list** entry it is true iff some element
satisfies every `(key, subCondition)` pair of the condition mapping via
`_process_condition`.  But Python strings *are* sequences: a string entry
is iterated character by character rather than rejected, so
`$elemMatch` on `"xy"` with condition `{"$eq": "x"}` succeeds. -/
theorem c7_elemMatch_sequences (kvs : List (String × Value)) :
    (∀ (cond : Value) (b : Bool) (n : Int) (kvs₂ : List (String × Value)),
      elemMatchH cond .null = .ok (.bool false) ∧
      elemMatchH cond (.bool b) = .ok (.bool false) ∧
      elemMatchH cond (.int n) = .ok (.bool false) ∧
      elemMatchH cond (.obj kvs₂) = .ok (.bool false) ∧
      elemMatchH cond .undefined = .ok (.bool false)) ∧
    (∀ (elems : List Value),
      (∀ el ∈ elems, ∃ b, procCondList kvs el = .ok b) →
      elemMatchH (.obj kvs) (.arr elems) = .ok (.bool (elems.any (elemHit kvs)))) ∧
    elemMatchH (.obj [("$eq", .str "x")]) (.str "xy") = .ok (.bool true) := by
  refine ⟨?_, ?_, ?_⟩
  · intro cond b n kvs₂
    refine ⟨?_, ?_, ?_, ?_, ?_⟩ <;> simp [elemMatchH]
  · intro elems hall
    cases elems with
    | nil => simp [elemMatchH]
    | cons el els =>
      have := elemMatchList_characterisation kvs (el :: els) hall
      simp [elemMatchH, this, Except.map]
  · simp [elemMatchH, elemMatchList, procCondList, processCondition,
      processCondition2, objHasKey, objLookup, strStartsDollar, strDrop1,
      opTagOf, opTable, List.lookup, eqH, pyEq, truthy, charToStr,
      bind, Except.bind, Except.map]

/-- C7 counterexample to the claim as stated: the record field `"a"` holds
the string `"xy"` — a scalar in the spec's value model — yet
`match({"a": {"$elemMatch": {"$eq": "x"}}}, {"a": "xy"})` returns `True`:
`_elemMatch` tests `isinstance(entry, Sequence)`, which admits strings,
and iterates the characters. -/
theorem c7_counterexample :
    mongoMatch (.obj [("a", .obj [("$elemMatch", .obj [("$eq", .str "x")])])])
      (.obj [("a", .str "xy")]) = .ok true := by
  simp [mongoMatch, matchC, procCondList, processCondition, processCondition2,
    elemMatchH, elemMatchList, objHasKey, objLookup, strStartsDollar, strDrop1,
    opTagOf, opTable, List.lookup, strContainsDot, splitDot, splitCharsOn,
    parsePyInt, extract, extractFan, extractCaught, eqH, pyEq, truthy,
    charToStr, matchAtomic, bind, Except.bind, Except.map]

/-- C7 witness: the non-sequence clause at condition `3`, entry `None`,
and the list clause at condition `{"$eq": 1}`, entry `[1]`. -/
theorem c7_witness :
    elemMatchH (.int 3) .null = .ok (.bool false) ∧
    elemMatchH (.obj [("$eq", .int 1)]) (.arr [.int 1])
      = .ok (.bool (([.int 1] : List Value).any (elemHit [("$eq", .int 1)]))) := by
  constructor
  · exact ((c7_elemMatch_sequences []).1 (.int 3) true 0 []).1
  · refine (c7_elemMatch_sequences [("$eq", .int 1)]).2.1 [.int 1] ?_
    intro el hel
    simp only [List.mem_singleton] at hel
    subst hel
    refine ⟨true, ?_⟩
    simp [procCondList, processCondition, processCondition2, objHasKey, objLookup,
      strStartsDollar, strDrop1, opTagOf, opTable, List.lookup, eqH, pyEq, truthy,
      bind, Except.bind, Except.map]

/-! ### C8 — `$in` argument validation -/

/-- C8 (amended): `$in` with a condition that is not a non-string sequence
raises a host-level `TypeError("condition must be a list")` — not a
`QueryError`.  With a list condition it is true iff, for a non-sequence
entry, some condition element `==` the entry, and for a list entry, some
condition element is contained in the entry. -/
theorem c8_in_requires_list :
    (∀ (condition entry : Value), isNonStringSeq condition = false →
      inB condition entry = .error (.typeError "condition must be a list")) ∧
    (∀ (elems : List Value) (entry : Value), isNonStringSeq entry = false →
      (inB (.arr elems) entry = .ok true ↔ ∃ elem ∈ elems, pyEq elem entry = true)) ∧
    (∀ (elems ys : List Value),
      (inB (.arr elems) (.arr ys) = .ok true ↔
        ∃ elem ∈ elems, ∃ y ∈ ys, pyEq y elem = true)) ∧
    mongoMatch (.obj [("a", .obj [("$in", .int 5)])]) (.obj [("a", .int 1)])
      = .error (.typeError "condition must be a list") := by
  refine ⟨?_, ?_, ?_, ?_⟩
  · intro condition entry hc
    cases condition with
    | arr xs => simp [isNonStringSeq] at hc
    | _ => simp [inB]
  · intro elems entry he
    cases entry with
    | arr ys => simp [isNonStringSeq] at he
    | _ => simp [inB, List.any_eq_true]
  · intro elems ys
    simp [inB, List.any_eq_true]
  · simp [mongoMatch, matchC, procCondList, processCondition, processCondition2,
      matchAtomic, opTagOf, opTable, List.lookup,
      objHasKey, objLookup, strStartsDollar, strDrop1, strContainsDot,
      splitDot, splitCharsOn, pyIsDigit, digitsToNat, parsePyInt,
      pyListIndex, pyContains, truthy, pyNotV, pyEq,
      inB, inH, extract, extractFan, extractCaught,
      bind, Except.bind, Except.map, pure, Except.pure]

/-- C8 counterexample to the claim as stated: applying `$in` with the
non-array condition `5` fails with `TypeError`, not with the `QueryError`
the claim requires. -/
theorem c8_counterexample :
    mongoMatch (.obj [("b", .obj [("$in", .str "no")])]) (.obj [("b", .int 2)])
      = .error (.typeError "condition must be a list") := by
  simp [mongoMatch, matchC, procCondList, processCondition, processCondition2,
    matchAtomic, opTagOf, opTable, List.lookup,
    objHasKey, objLookup, strStartsDollar, strDrop1, strContainsDot,
    splitDot, splitCharsOn, pyIsDigit, digitsToNat, parsePyInt,
    pyListIndex, pyContains, truthy, pyNotV, pyEq,
    inB, inH, extract, extractFan, extractCaught,
    bind, Except.bind, Except.map, pure, Except.pure]

/-- C8 witness: the `TypeError` clause applied at condition `5`. -/
theorem c8_witness :
    isNonStringSeq (.int 5) = false ∧
    inB (.int 5) (.int 1) = .error (.typeError "condition must be a list") :=
  ⟨rfl, (c8_in_requires_list.1 (.int 5) (.int 1) rfl)⟩

/-! ### C9 — `$type` and booleans as numbers -/

/-- C9: Python booleans are `int` instances, so `$type` with `"number"`,
`"int"` or `"long"` accepts a boolean entry (while `"bool"` remains the
dedicated alias); in particular `{"n": {"$type": "number"}}` matches
`{"n": true}`. -/
theorem c9_type_bool_is_number (b : Bool) :
    typeH (.str "number") (.bool b) = .ok (.bool true) ∧
    typeH (.str "int") (.bool b) = .ok (.bool true) ∧
    typeH (.str "long") (.bool b) = .ok (.bool true) ∧
    typeH (.str "bool") (.bool b) = .ok (.bool true) ∧
    mongoMatch (.obj [("n", .obj [("$type", .str "number")])]) (.obj [("n", .bool b)])
      = .ok true := by
  refine ⟨?_, ?_, ?_, ?_, ?_⟩ <;>
    simp [mongoMatch, matchC, procCondList, processCondition, processCondition2,
      matchAtomic, opTagOf, opTable, List.lookup,
      objHasKey, objLookup, strStartsDollar, strDrop1, strContainsDot,
      splitDot, splitCharsOn, parsePyInt, extract, extractFan, extractCaught,
      typeH, bsonAlias, bsonTypeHas, isInstFloat, isInstInt, isInstBool,
      isInstStr, isInstMapping, isInstNone, isSeqInst,
      pyEq, truthy, bind, Except.bind, Except.map]

/-! ### C10 — `$mod` validation behaviour -/

/-- C10 (amended): `$mod` computes `entry % condition[0] == condition[1]`
with no validation.  With a numeric entry: a zero divisor raises
`ZeroDivisionError`; a missing remainder slot raises `IndexError`; a
non-subscriptable condition raises `TypeError`; a `None` (or other
non-numeric, non-string) entry raises `TypeError` — all host errors,
never `QueryError`/`NotImplementedError`.  But a malformed condition that
subscripts cleanly raises nothing: extra elements beyond the first two are
silently ignored (`[2, 1, 99]` behaves as `[2, 1]`). -/
theorem c10_mod_no_validation :
    (∀ (x d r' : Int) (extra : List Value), d ≠ 0 →
      modH (.arr (.int d :: .int r' :: extra)) (.int x)
        = .ok (.bool (Int.fmod x d == r'))) ∧
    (∀ (x : Int) (rest : List Value),
      modH (.arr (.int 0 :: rest)) (.int x) = .error .zeroDivisionError) ∧
    (∀ (d : Int) (rest : List Value),
      modH (.arr (.int d :: rest)) .null
        = .error (.typeError "unsupported operand types for mod")) ∧
    (∀ (x : Int), modH (.arr [.int 3]) (.int x) = .error .indexError) ∧
    (∀ (entry : Value), modH (.int 7) entry
        = .error (.typeError "object is not subscriptable")) ∧
    mongoMatch (.obj [("n", .obj [("$mod", .arr [.int 2, .int 1, .int 99])])])
      (.obj [("n", .int 5)]) = .ok true := by
  refine ⟨?_, ?_, ?_, ?_, ?_, ?_⟩
  · intro x d r' extra hd
    simp [modH, pyGetItemNat, pyModOp, numAsInt, pyEq, hd, bind, Except.bind]
  · intro x rest
    simp [modH, pyGetItemNat, pyModOp, numAsInt, bind, Except.bind]
  · intro d rest
    simp [modH, pyGetItemNat, pyModOp, numAsInt, bind, Except.bind]
  · intro x
    simp [modH, pyGetItemNat, pyModOp, numAsInt, bind, Except.bind]
  · intro entry
    simp [modH, pyGetItemNat, bind, Except.bind]
  · simp [mongoMatch, matchC, procCondList, processCondition, processCondition2,
      matchAtomic, opTagOf, opTable, List.lookup,
      objHasKey, objLookup, strStartsDollar, strDrop1, strContainsDot,
      splitDot, splitCharsOn, parsePyInt, extract, extractFan, extractCaught,
      modH, pyGetItemNat, pyModOp, numAsInt,
      pyEq, truthy, bind, Except.bind, Except.map]

/-- C10 counterexample to the claim as stated: `[2, 1, 99]` is not a
two-element numeric sequence, yet `$mod` raises no
`TypeError`/`IndexError`/`KeyError` — the query simply matches
(`5 % 2 == 1`, third element ignored). -/
theorem c10_counterexample :
    mongoMatch (.obj [("m", .obj [("$mod", .arr [.int 2, .int 1, .int 99])])])
      (.obj [("m", .int 7)]) = .ok true := by
  simp [mongoMatch, matchC, procCondList, processCondition, processCondition2,
    matchAtomic, opTagOf, opTable, List.lookup,
    objHasKey, objLookup, strStartsDollar, strDrop1, strContainsDot,
    splitDot, splitCharsOn, parsePyInt, extract, extractFan, extractCaught,
    modH, pyGetItemNat, pyModOp, numAsInt,
    pyEq, truthy, bind, Except.bind, Except.map]

/-- C10 witness: the ignored-extra-element clause applied at
`entry = 5`, condition `[2, 1, 99]`, and the zero-divisor clause at
`entry = 5`, condition `[0, 1]`. -/
theorem c10_witness :
    modH (.arr [.int 2, .int 1, .int 99]) (.int 5)
      = .ok (.bool (Int.fmod 5 2 == 1)) ∧
    modH (.arr [.int 0, .int 1]) (.int 5) = .error .zeroDivisionError :=
  ⟨c10_mod_no_validation.1 5 2 1 [.int 99] (by decide),
   c10_mod_no_validation.2.1 5 [.int 1]⟩
